import Mathlib

/-!
Verification of the chili-lang bytecode virtual machine
(`src/compiler/chili_interp/src/vm/mod.rs`, the current revision of the VM)
and the interpreter session's global-slot management
(`src/src/interp/interp.rs`).

The embedding below translates the Rust source into Lean:

* machine integers are modelled as `Int` (signed) / `Nat` (unsigned) with
  explicit two's-complement wrapping (`% 2 ^ w`) where the source relies on
  release-mode wrapping arithmetic; Rust operations that panic in every build
  profile (integer division/remainder by zero and their `MIN / -1` overflow)
  are modelled as fatal errors;
* floats are modelled by an idealized IEEE-754 carrier `Flt` (exact rationals
  plus `inf`, `neginf`, `nan`); rounding and signed zero are not modelled —
  the properties verified here depend only on the zero/`inf`/`nan` structure
  of IEEE division;
* the operand stack is a list whose head is the top of the stack; the source's
  `Stack<T, MAX>` (`vm/stack.rs`, not part of the repository sample) is
  fixed-capacity with fatal overflow per the spec; capacity exhaustion is
  orthogonal to the verified claims, so pushes are modelled total, and
  popping/peeking an empty stack is modelled as a fatal error;
* raw typed pointers (`vm/value.rs`, not part of the repository sample) are
  modelled, following the spec's recommended design, as logical addresses:
  a tagged variant per primitive type carrying a global-slot or stack-slot
  location; dereferencing or writing a dangling/out-of-bounds location (which
  is undefined behavior in the source) is modelled as a fatal error;
* the foreign-function boundary is an external collaborator per the spec and
  is modelled as a pure oracle passed to the step function.
-/

/-- Type tags carried by function signatures (`TyKind` in the source,
abbreviated: the VM consumes only the length of `arg_types`). -/
inductive Ty where
  | unit : Ty
  | bool : Ty
  | int : Ty
  | uint : Ty
  | f64 : Ty
deriving DecidableEq

/-- Idealized IEEE-754 floating-point carrier: exact finite rationals plus
the two infinities and `nan`. Rounding and signed zero are not modelled. -/
inductive Flt where
  | num : Rat → Flt
  | inf : Flt
  | neginf : Flt
  | nan : Flt
deriving DecidableEq

/-- IEEE addition on the idealized carrier. -/
def fltAdd : Flt → Flt → Flt
  | .nan, _ => .nan
  | _, .nan => .nan
  | .inf, .neginf => .nan
  | .neginf, .inf => .nan
  | .inf, _ => .inf
  | _, .inf => .inf
  | .neginf, _ => .neginf
  | _, .neginf => .neginf
  | .num a, .num b => .num (a + b)

/-- IEEE negation on the idealized carrier. -/
def fltNeg : Flt → Flt
  | .nan => .nan
  | .inf => .neginf
  | .neginf => .inf
  | .num a => .num (-a)

/-- IEEE subtraction on the idealized carrier. -/
def fltSub (a b : Flt) : Flt := fltAdd a (fltNeg b)

/-- IEEE multiplication on the idealized carrier. -/
def fltMul : Flt → Flt → Flt
  | .nan, _ => .nan
  | _, .nan => .nan
  | .inf, .inf => .inf
  | .inf, .neginf => .neginf
  | .neginf, .inf => .neginf
  | .neginf, .neginf => .inf
  | .inf, .num b => if b = 0 then .nan else if 0 < b then .inf else .neginf
  | .num a, .inf => if a = 0 then .nan else if 0 < a then .inf else .neginf
  | .neginf, .num b => if b = 0 then .nan else if 0 < b then .neginf else .inf
  | .num a, .neginf => if a = 0 then .nan else if 0 < a then .neginf else .inf
  | .num a, .num b => .num (a * b)

/-- IEEE division on the idealized carrier. A zero divisor yields `nan` from
a zero numerator and a signed infinity otherwise; it never faults. -/
def fltDiv : Flt → Flt → Flt
  | .nan, _ => .nan
  | _, .nan => .nan
  | .inf, .inf => .nan
  | .inf, .neginf => .nan
  | .neginf, .inf => .nan
  | .neginf, .neginf => .nan
  | .inf, .num b => if b < 0 then .neginf else .inf
  | .neginf, .num b => if b < 0 then .inf else .neginf
  | .num _, .inf => .num 0
  | .num _, .neginf => .num 0
  | .num a, .num b =>
    if b = 0 then (if a = 0 then .nan else if 0 < a then .inf else .neginf)
    else .num (a / b)

/-- IEEE remainder on the idealized carrier (zero divisor yields `nan`). -/
def fltRem : Flt → Flt → Flt
  | .nan, _ => .nan
  | _, .nan => .nan
  | .inf, _ => .nan
  | .neginf, _ => .nan
  | .num a, .inf => .num a
  | .num a, .neginf => .num a
  | .num a, .num b =>
    if b = 0 then .nan else .num (a - b * (Rat.floor (a / b) : Rat))

/-- IEEE strict less-than (`nan` compares false with everything). -/
def fltLt : Flt → Flt → Bool
  | .nan, _ => false
  | _, .nan => false
  | .neginf, .neginf => false
  | .neginf, _ => true
  | _, .neginf => false
  | .inf, _ => false
  | .num _, .inf => true
  | .num a, .num b => decide (a < b)

/-- IEEE equality (`nan` is not equal to anything, itself included). -/
def fltEqb : Flt → Flt → Bool
  | .nan, _ => false
  | _, .nan => false
  | .inf, .inf => true
  | .neginf, .neginf => true
  | .num a, .num b => decide (a = b)
  | _, _ => false

/-- IEEE less-or-equal. -/
def fltLe (a b : Flt) : Bool := fltLt a b || fltEqb a b

/-- Two's-complement wrap of an integer into the signed `w`-bit range,
the effect of Rust release-mode arithmetic on `iw`. -/
def wrapS (w : Nat) (x : Int) : Int := (x + 2 ^ (w - 1)) % 2 ^ w - 2 ^ (w - 1)

/-- Wrap of a natural number into the unsigned `w`-bit range. -/
def wrapU (w : Nat) (x : Nat) : Nat := x % 2 ^ w

/-- The VM instruction set (`Instruction` in `vm/instruction.rs`). One
constructor per opcode handled by the execution loop in `vm/mod.rs`; the
aggregate/array/index/cast opcodes and `Panic`, whose implementations live in
modules outside the repository sample (`byte_seq.rs`, `index.rs`, `cast.rs`)
and which no verified claim touches, are not modelled. `Instruction::Return`
is rendered as `ret` because `return` is a Lean keyword. -/
inductive Instruction where
  | noop : Instruction
  | pop : Instruction
  | pushConst : Nat → Instruction
  | add : Instruction
  | sub : Instruction
  | mul : Instruction
  | div : Instruction
  | rem : Instruction
  | neg : Instruction
  | not : Instruction
  | deref : Instruction
  | eq : Instruction
  | neq : Instruction
  | lt : Instruction
  | ltEq : Instruction
  | gt : Instruction
  | gtEq : Instruction
  | and : Instruction
  | or : Instruction
  | jmp : Int → Instruction
  | jmpt : Int → Instruction
  | jmpf : Int → Instruction
  | ret : Instruction
  | call : Nat → Instruction
  | getGlobal : Nat → Instruction
  | getGlobalPtr : Nat → Instruction
  | setGlobal : Nat → Instruction
  | peek : Int → Instruction
  | peekPtr : Int → Instruction
  | setLocal : Int → Instruction
  | assign : Instruction
  | copy : Nat → Instruction
  | roll : Nat → Instruction
  | increment : Instruction
  | halt : Instruction
deriving DecidableEq

/-- An instruction sequence plus the declared count of local slots a frame
reserves beyond its arguments (`CompiledCode`; `locals` is a `u16`). -/
structure CompiledCode where
  instructions : List Instruction
  locals : Nat
deriving DecidableEq

/-- A declared external symbol descriptor (`ForeignFunc`; the field set
follows the spec: library, name, parameter types, return type, variadic). -/
structure ForeignFunc where
  lib : String
  name : String
  param_tys : List Ty
  return_ty : Ty
  variadic : Bool
deriving DecidableEq

/-- A logical address: either a global-table slot or an absolute operand-stack
slot (index from the bottom of the stack). Modelled from the spec: the
source's raw addresses into the stack/globals (`vm/value.rs`, not in the
repository sample) are represented as bounds-checked logical locations, the
design the spec itself recommends. -/
inductive PtrLoc where
  | global : Nat → PtrLoc
  | stackSlot : Nat → PtrLoc
deriving DecidableEq

/-- Modelled from the spec: the `Pointer` enum of `vm/value.rs` (not in the
repository sample) — one tagged-address variant per primitive numeric/bool
type plus an opaque `raw` variant. -/
inductive Pointer where
  | i8 : PtrLoc → Pointer
  | i16 : PtrLoc → Pointer
  | i32 : PtrLoc → Pointer
  | i64 : PtrLoc → Pointer
  | int : PtrLoc → Pointer
  | u8 : PtrLoc → Pointer
  | u16 : PtrLoc → Pointer
  | u32 : PtrLoc → Pointer
  | u64 : PtrLoc → Pointer
  | uint : PtrLoc → Pointer
  | f32 : PtrLoc → Pointer
  | f64 : PtrLoc → Pointer
  | bool : PtrLoc → Pointer
  | raw : PtrLoc → Pointer
deriving DecidableEq

/-- The location a pointer addresses, independent of its tag. -/
def Pointer.loc : Pointer → PtrLoc
  | .i8 l => l
  | .i16 l => l
  | .i32 l => l
  | .i64 l => l
  | .int l => l
  | .u8 l => l
  | .u16 l => l
  | .u32 l => l
  | .u64 l => l
  | .uint l => l
  | .f32 l => l
  | .f64 l => l
  | .bool l => l
  | .raw l => l

mutual

/-- The tagged runtime value (`Value` in `vm/value.rs`, whose variant list is
given by the spec's data model): `Unit`, `Bool`, the ten integer widths
(`Int`/`Uint` are the 64-bit machine-word types), two float widths, `Pointer`,
`Aggregate`, `Function` and `ForeignFunction`. The `Array` variant (typed raw
byte buffer, `byte_seq.rs` not in the sample) is untouched by every verified
claim and is modelled by its element type and raw bytes. -/
inductive Value where
  | unit : Value
  | bool : Bool → Value
  | i8 : Int → Value
  | i16 : Int → Value
  | i32 : Int → Value
  | i64 : Int → Value
  | int : Int → Value
  | u8 : Nat → Value
  | u16 : Nat → Value
  | u32 : Nat → Value
  | u64 : Nat → Value
  | uint : Nat → Value
  | f32 : Flt → Value
  | f64 : Flt → Value
  | pointer : Pointer → Value
  | array : List Nat → Ty → Value
  | aggregate : List Value → Value
  | func : Func → Value
  | foreignFunc : ForeignFunc → Value

/-- A bytecode function (`Function` in the source: binding id, name, argument
types, return type, compiled code). -/
inductive Func where
  | mk : Nat → String → List Ty → Ty → CompiledCode → Func

end

/-- The function's binding id. -/
def Func.id : Func → Nat
  | .mk i _ _ _ _ => i

/-- The function's name. -/
def Func.name : Func → String
  | .mk _ n _ _ _ => n

/-- The function's argument type list (`arg_types`). -/
def Func.arg_types : Func → List Ty
  | .mk _ _ a _ _ => a

/-- The function's return type. -/
def Func.return_ty : Func → Ty
  | .mk _ _ _ r _ => r

/-- The function's compiled code. -/
def Func.code : Func → CompiledCode
  | .mk _ _ _ _ c => c

/-- Modelled from the spec: the truthiness projection of `vm/value.rs` (not
in the repository sample): `Bool(true)` is truthy and every other value is
falsy, matching `Value::is_truthy` in the older `value.rs` revision that is
in the sample. -/
def Value.into_bool : Value → Bool
  | .bool b => b
  | _ => false

/-- Modelled from the spec: `Pointer` construction from a `&mut Value`
(`vm/value.rs`, not in the sample) — the pointer's tag variant is chosen by
the pointee's tag, with the opaque `raw` variant for non-primitive values. -/
def Pointer.ofValue (loc : PtrLoc) : Value → Pointer
  | .i8 _ => .i8 loc
  | .i16 _ => .i16 loc
  | .i32 _ => .i32 loc
  | .i64 _ => .i64 loc
  | .int _ => .int loc
  | .u8 _ => .u8 loc
  | .u16 _ => .u16 loc
  | .u32 _ => .u32 loc
  | .u64 _ => .u64 loc
  | .uint _ => .uint loc
  | .f32 _ => .f32 loc
  | .f64 _ => .f64 loc
  | .bool _ => .bool loc
  | _ => .raw loc

/-- An activation record (`StackFrame` in `vm/mod.rs`): the running function,
its base slot into the operand stack, and its instruction pointer. The
source stores a raw `*const Func`; the model stores the function itself. -/
structure StackFrame where
  func : Func
  stack_slot : Nat
  ip : Nat

/-- The whole VM configuration: operand stack (head is the top of the
stack), frame stack (head is the active frame), and the session's globals
and constants tables that the VM borrows (`VM` plus `Interp` in the source). -/
structure VMState where
  stack : List Value
  frames : List StackFrame
  globals : List Value
  constants : List Value

/-- The foreign-call boundary (`interp.ffi.call`): an external collaborator,
modelled as a pure oracle from a descriptor and the left-to-right argument
values to the single result value. -/
abbrev FfiFn := ForeignFunc → List Value → Value

/-- Outcome of executing one instruction: continue, leave the run loop with
a result (a `break` in the source), or abort fatally (a Rust `panic!`). -/
inductive StepResult where
  | ok : VMState → StepResult
  | done : Value → VMState → StepResult
  | fatal : String → StepResult

/-- The instruction at `ip` in a function's code
(`frame.func().code.instructions[frame.ip]`). -/
def instrAt (f : Func) (ip : Nat) : Option Instruction :=
  f.code.instructions.get? ip

/-- Advance the active frame's instruction pointer (`self.next()`). -/
def nextFrames (fr : StackFrame) (frest : List StackFrame) : List StackFrame :=
  { fr with ip := fr.ip + 1 } :: frest

/-- `VM::push_frame`: the base slot is the operand-stack length minus one
(computed before anything is pushed), then `locals` `Unit` placeholders are
pushed, then the new frame (with `ip = 0`) becomes active. -/
def pushFrame (s : VMState) (f : Func) : VMState :=
  { s with
    stack := List.replicate f.code.locals Value.unit ++ s.stack,
    frames := ⟨f, s.stack.length - 1, 0⟩ :: s.frames }

/-- `Stack::truncate(len)`: keep the bottom `n` values (a no-op when the
stack is already at most `n` deep, like `Vec::truncate`). -/
def stackTruncate (st : List Value) (n : Nat) : List Value :=
  st.drop (st.length - n)

/-- `Stack::get(i)`: read the absolute slot `i` (indexed from the bottom). -/
def stackGetAbs (st : List Value) (i : Nat) : Option Value :=
  if i < st.length then st.get? (st.length - 1 - i) else none

/-- `Stack::set(i, v)`: overwrite the absolute slot `i` (caller checks
bounds). -/
def stackSetAbs (st : List Value) (i : Nat) (v : Value) : List Value :=
  st.set (st.length - 1 - i) v

/-- Read through a logical pointer location. -/
def readLoc (s : VMState) : PtrLoc → Option Value
  | .global slot => s.globals.get? slot
  | .stackSlot i => stackGetAbs s.stack i

/-- Write through a logical pointer location (`Pointer::write_value`). An
out-of-bounds location is undefined behavior in the source's raw-pointer
model and is surfaced as `none` here. -/
def writeLoc (s : VMState) : PtrLoc → Value → Option VMState
  | .global slot, v =>
    if slot < s.globals.length then some { s with globals := s.globals.set slot v }
    else none
  | .stackSlot i, v =>
    if i < s.stack.length then some { s with stack := stackSetAbs s.stack i v }
    else none

/-- The `binary_op!` macro: dispatch on the (same-tag) operand pair, apply
the width-indexed signed/unsigned operation or the float operation, and
retag the result. A tag mismatch is fatal. -/
def binArith (si : Nat → Int → Int → Except String Int)
    (un : Nat → Nat → Nat → Except String Nat)
    (fl : Flt → Flt → Flt) : Value → Value → Except String Value
  | .i8 a, .i8 b => (si 8 a b).map .i8
  | .i16 a, .i16 b => (si 16 a b).map .i16
  | .i32 a, .i32 b => (si 32 a b).map .i32
  | .i64 a, .i64 b => (si 64 a b).map .i64
  | .int a, .int b => (si 64 a b).map .int
  | .u8 a, .u8 b => (un 8 a b).map .u8
  | .u16 a, .u16 b => (un 16 a b).map .u16
  | .u32 a, .u32 b => (un 32 a b).map .u32
  | .u64 a, .u64 b => (un 64 a b).map .u64
  | .uint a, .uint b => (un 64 a b).map .uint
  | .f32 a, .f32 b => .ok (.f32 (fl a b))
  | .f64 a, .f64 b => .ok (.f64 (fl a b))
  | _, _ => .error "invalid types in binary operation"

/-- Rust `+` on a signed `w`-bit integer (release-mode wrapping). -/
def addS (w : Nat) (a b : Int) : Except String Int := .ok (wrapS w (a + b))

/-- Rust `+` on an unsigned `w`-bit integer (release-mode wrapping). -/
def addU (w : Nat) (a b : Nat) : Except String Nat := .ok (wrapU w (a + b))

/-- Rust `-` on a signed `w`-bit integer (release-mode wrapping). -/
def subS (w : Nat) (a b : Int) : Except String Int := .ok (wrapS w (a - b))

/-- Rust `-` on an unsigned `w`-bit integer (release-mode wrapping of the
possibly-negative difference). -/
def subU (w : Nat) (a b : Nat) : Except String Nat :=
  .ok ((((a : Int) - b) % 2 ^ w).toNat)

/-- Rust `*` on a signed `w`-bit integer (release-mode wrapping). -/
def mulS (w : Nat) (a b : Int) : Except String Int := .ok (wrapS w (a * b))

/-- Rust `*` on an unsigned `w`-bit integer (release-mode wrapping). -/
def mulU (w : Nat) (a b : Nat) : Except String Nat := .ok (wrapU w (a * b))

/-- Rust `/` on a signed `w`-bit integer: panics on a zero divisor and on
the overflowing `MIN / -1`, in every build profile; otherwise truncating
division. -/
def divS (w : Nat) (a b : Int) : Except String Int :=
  if b = 0 then .error "attempt to divide by zero"
  else if a = -(2 ^ (w - 1)) ∧ b = -1 then .error "attempt to divide with overflow"
  else .ok (a.tdiv b)

/-- Rust `/` on an unsigned `w`-bit integer: panics on a zero divisor. -/
def divU (_w : Nat) (a b : Nat) : Except String Nat :=
  if b = 0 then .error "attempt to divide by zero"
  else .ok (a / b)

/-- Rust `%` on a signed `w`-bit integer: panics on a zero divisor and on
the overflowing `MIN % -1`; otherwise truncating remainder. -/
def remS (w : Nat) (a b : Int) : Except String Int :=
  if b = 0 then .error "attempt to calculate the remainder with a divisor of zero"
  else if a = -(2 ^ (w - 1)) ∧ b = -1 then
    .error "attempt to calculate the remainder with overflow"
  else .ok (a - b * a.tdiv b)

/-- Rust `%` on an unsigned `w`-bit integer: panics on a zero divisor. -/
def remU (_w : Nat) (a b : Nat) : Except String Nat :=
  if b = 0 then .error "attempt to calculate the remainder with a divisor of zero"
  else .ok (a % b)

/-- The `Div` operand dispatch (`binary_op!(self, /)`). -/
def divOp : Value → Value → Except String Value := binArith divS divU fltDiv

/-- The `Add` operand dispatch (`binary_op!(self, +)`). -/
def addOp : Value → Value → Except String Value := binArith addS addU fltAdd

/-- The `Sub` operand dispatch (`binary_op!(self, -)`). -/
def subOp : Value → Value → Except String Value := binArith subS subU fltSub

/-- The `Mul` operand dispatch (`binary_op!(self, *)`). -/
def mulOp : Value → Value → Except String Value := binArith mulS mulU fltMul

/-- The `Rem` operand dispatch (`binary_op!(self, %)`). -/
def remOp : Value → Value → Except String Value := binArith remS remU fltRem

/-- The `comp_op!` macro: dispatch on the (same-tag) operand pair and push
the boolean comparison result. A tag mismatch is fatal. -/
def compOp (ic : Int → Int → Bool) (nc : Nat → Nat → Bool)
    (bc : Bool → Bool → Bool) (fc : Flt → Flt → Bool) :
    Value → Value → Except String Value
  | .bool a, .bool b => .ok (.bool (bc a b))
  | .i8 a, .i8 b => .ok (.bool (ic a b))
  | .i16 a, .i16 b => .ok (.bool (ic a b))
  | .i32 a, .i32 b => .ok (.bool (ic a b))
  | .i64 a, .i64 b => .ok (.bool (ic a b))
  | .int a, .int b => .ok (.bool (ic a b))
  | .u8 a, .u8 b => .ok (.bool (nc a b))
  | .u16 a, .u16 b => .ok (.bool (nc a b))
  | .u32 a, .u32 b => .ok (.bool (nc a b))
  | .u64 a, .u64 b => .ok (.bool (nc a b))
  | .uint a, .uint b => .ok (.bool (nc a b))
  | .f32 a, .f32 b => .ok (.bool (fc a b))
  | .f64 a, .f64 b => .ok (.bool (fc a b))
  | _, _ => .error "invalid types in compare operation"

/-- The `Not` dispatch: bitwise complement for every integer width (kept in
the operand's tag), logical negation for `Bool`, fatal otherwise. -/
def notOp : Value → Except String Value
  | .i8 v => .ok (.i8 (wrapS 8 (-v - 1)))
  | .i16 v => .ok (.i16 (wrapS 16 (-v - 1)))
  | .i32 v => .ok (.i32 (wrapS 32 (-v - 1)))
  | .i64 v => .ok (.i64 (wrapS 64 (-v - 1)))
  | .int v => .ok (.int (wrapS 64 (-v - 1)))
  | .u8 v => .ok (.u8 (2 ^ 8 - 1 - wrapU 8 v))
  | .u16 v => .ok (.u16 (2 ^ 16 - 1 - wrapU 16 v))
  | .u32 v => .ok (.u32 (2 ^ 32 - 1 - wrapU 32 v))
  | .u64 v => .ok (.u64 (2 ^ 64 - 1 - wrapU 64 v))
  | .uint v => .ok (.uint (2 ^ 64 - 1 - wrapU 64 v))
  | .bool v => .ok (.bool !v)
  | _ => .error "invalid value in not"

/-- The `Increment` pointee update: `*v += 1` through an integer-tagged
pointer (release-mode wrapping), `none` for any other pointee. -/
def incValue : Value → Option Value
  | .i8 v => some (.i8 (wrapS 8 (v + 1)))
  | .i16 v => some (.i16 (wrapS 16 (v + 1)))
  | .i32 v => some (.i32 (wrapS 32 (v + 1)))
  | .i64 v => some (.i64 (wrapS 64 (v + 1)))
  | .int v => some (.int (wrapS 64 (v + 1)))
  | .u8 v => some (.u8 (wrapU 8 (v + 1)))
  | .u16 v => some (.u16 (wrapU 16 (v + 1)))
  | .u32 v => some (.u32 (wrapU 32 (v + 1)))
  | .u64 v => some (.u64 (wrapU 64 (v + 1)))
  | .uint v => some (.uint (wrapU 64 (v + 1)))
  | _ => none

/-- Whether a pointer carries one of the ten integer tags — exactly the
variants the `Increment` match in `vm/mod.rs` handles; every other variant
falls to its fatal catch-all arm. -/
def Pointer.isIntTag : Pointer → Bool
  | .i8 _ => true
  | .i16 _ => true
  | .i32 _ => true
  | .i64 _ => true
  | .int _ => true
  | .u8 _ => true
  | .u16 _ => true
  | .u32 _ => true
  | .u64 _ => true
  | .uint _ => true
  | _ => false

/-- The relative-jump target: `self.jmp(offset)` computes
`frame.ip as isize + offset` and casts back `as usize` (wrapping mod 2^64). -/
def jmpIp (ip : Nat) (offset : Int) : Nat := (((ip : Int) + offset) % 2 ^ 64).toNat

/-- Execute a binary arithmetic opcode: pop `b` then `a`, dispatch, push. -/
def binStep (s : VMState) (fr : StackFrame) (frest : List StackFrame)
    (op : Value → Value → Except String Value) : StepResult :=
  match s.stack with
  | b :: a :: rest =>
    match op a b with
    | .ok v => .ok { s with stack := v :: rest, frames := nextFrames fr frest }
    | .error msg => .fatal msg
  | _ => .fatal "stack underflow"

/-- Execute a comparison opcode: pop `b` then `a`, dispatch, push. -/
def compStep (s : VMState) (fr : StackFrame) (frest : List StackFrame)
    (op : Value → Value → Except String Value) : StepResult :=
  match s.stack with
  | b :: a :: rest =>
    match op a b with
    | .ok v => .ok { s with stack := v :: rest, frames := nextFrames fr frest }
    | .error msg => .fatal msg
  | _ => .fatal "stack underflow"

/-- One iteration of the fetch-decode-execute loop (`VM::run_inner` in
`vm/mod.rs`): fetch the instruction at the active frame's `ip` and execute
it. Each arm is a direct transcription of the corresponding `match` arm of
the source. -/
def step (ffi : FfiFn) (s : VMState) : StepResult :=
  match s.frames with
  | [] => .fatal "no active frame"
  | fr :: frest =>
    match instrAt fr.func fr.ip with
    | none => .fatal "instruction pointer out of bounds"
    | some inst =>
      match inst with
      | .noop => .ok { s with frames := nextFrames fr frest }
      | .pop =>
        match s.stack with
        | _ :: rest => .ok { s with stack := rest, frames := nextFrames fr frest }
        | [] => .fatal "stack underflow"
      | .pushConst addr =>
        match s.constants.get? addr with
        | some v => .ok { s with stack := v :: s.stack, frames := nextFrames fr frest }
        | none => .fatal "constant address out of bounds"
      | .add => binStep s fr frest addOp
      | .sub => binStep s fr frest subOp
      | .mul => binStep s fr frest mulOp
      | .div => binStep s fr frest divOp
      | .rem => binStep s fr frest remOp
      | .neg =>
        -- the source's `Neg` handles only the `Int` variant
        match s.stack with
        | .int v :: rest =>
          .ok { s with stack := .int (wrapS 64 (-v)) :: rest, frames := nextFrames fr frest }
        | _ :: _ => .fatal "invalid value in neg"
        | [] => .fatal "stack underflow"
      | .not =>
        match s.stack with
        | a :: rest =>
          match notOp a with
          | .ok v => .ok { s with stack := v :: rest, frames := nextFrames fr frest }
          | .error msg => .fatal msg
        | [] => .fatal "stack underflow"
      | .deref =>
        match s.stack with
        | .pointer p :: rest =>
          match readLoc { s with stack := rest } p.loc with
          | some v => .ok { s with stack := v :: rest, frames := nextFrames fr frest }
          | none => .fatal "dangling pointer in deref"
        | _ :: _ => .fatal "invalid value in deref"
        | [] => .fatal "stack underflow"
      | .eq =>
        compStep s fr frest (compOp (fun a b => decide (a = b)) (fun a b => decide (a = b))
          (fun a b => a == b) fltEqb)
      | .neq =>
        compStep s fr frest (compOp (fun a b => decide (a ≠ b)) (fun a b => decide (a ≠ b))
          (fun a b => a != b) (fun a b => !fltEqb a b))
      | .lt =>
        compStep s fr frest (compOp (fun a b => decide (a < b)) (fun a b => decide (a < b))
          (fun a b => !a && b) fltLt)
      | .ltEq =>
        compStep s fr frest (compOp (fun a b => decide (a ≤ b)) (fun a b => decide (a ≤ b))
          (fun a b => !a || b) fltLe)
      | .gt =>
        compStep s fr frest (compOp (fun a b => decide (b < a)) (fun a b => decide (b < a))
          (fun a b => a && !b) (fun a b => fltLt b a))
      | .gtEq =>
        compStep s fr frest (compOp (fun a b => decide (b ≤ a)) (fun a b => decide (b ≤ a))
          (fun a b => a || !b) (fun a b => fltLe b a))
      | .and =>
        -- `logic_op!(self, &&)`: both operands go through the truthiness
        -- projection; no arm is fatal
        match s.stack with
        | b :: a :: rest =>
          .ok { s with stack := .bool (a.into_bool && b.into_bool) :: rest,
                       frames := nextFrames fr frest }
        | _ => .fatal "stack underflow"
      | .or =>
        match s.stack with
        | b :: a :: rest =>
          .ok { s with stack := .bool (a.into_bool || b.into_bool) :: rest,
                       frames := nextFrames fr frest }
        | _ => .fatal "stack underflow"
      | .jmp offset => .ok { s with frames := { fr with ip := jmpIp fr.ip offset } :: frest }
      | .jmpt offset =>
        match s.stack with
        | cond :: rest =>
          if cond.into_bool then
            .ok { s with stack := rest, frames := { fr with ip := jmpIp fr.ip offset } :: frest }
          else
            .ok { s with stack := rest, frames := nextFrames fr frest }
        | [] => .fatal "stack underflow"
      | .jmpf offset =>
        match s.stack with
        | cond :: rest =>
          if !cond.into_bool then
            .ok { s with stack := rest, frames := { fr with ip := jmpIp fr.ip offset } :: frest }
          else
            .ok { s with stack := rest, frames := nextFrames fr frest }
        | [] => .fatal "stack underflow"
      | .ret =>
        -- pop the current frame, pop the return value; if that was the last
        -- frame the loop breaks with the value, otherwise the stack is
        -- truncated to `frame.stack_slot - frame.func().arg_types.len()`
        -- (an underflowing usize subtraction would be a checked-arithmetic
        -- panic in debug and a wrap in release; the verified claims concern
        -- the non-underflowing case) and the value is pushed for the caller
        match s.stack with
        | rv :: rest =>
          match frest with
          | [] => .done rv { s with stack := rest, frames := [] }
          | caller :: frest2 =>
            .ok { s with
              stack := rv :: stackTruncate rest (fr.stack_slot - fr.func.arg_types.length),
              frames := nextFrames caller frest2 }
        | [] => .fatal "stack underflow"
      | .call arg_count =>
        -- the callee is peeked, not popped
        match s.stack with
        | top :: rest =>
          match top with
          | .func f => .ok (pushFrame s f)
          | .foreignFunc ff =>
            -- the foreign function is popped, then `arg_count` values are
            -- popped and reversed back to left-to-right order
            if arg_count ≤ rest.length then
              .ok { s with
                stack := ffi ff ((rest.take arg_count).reverse) :: rest.drop arg_count,
                frames := nextFrames fr frest }
            else .fatal "stack underflow"
          | _ => .fatal "tried to call an uncallable value"
        | [] => .fatal "stack underflow"
      | .getGlobal slot =>
        match s.globals.get? slot with
        | some v => .ok { s with stack := v :: s.stack, frames := nextFrames fr frest }
        | none => .fatal "undefined global"
      | .getGlobalPtr slot =>
        match s.globals.get? slot with
        | some v =>
          .ok { s with stack := .pointer (Pointer.ofValue (.global slot) v) :: s.stack,
                       frames := nextFrames fr frest }
        | none => .fatal "undefined global"
      | .setGlobal slot =>
        match s.stack with
        | v :: rest =>
          if slot < s.globals.length then
            .ok { s with stack := rest, globals := s.globals.set slot v,
                         frames := nextFrames fr frest }
          else .fatal "global index out of bounds"
        | [] => .fatal "stack underflow"
      | .peek slot =>
        let abs : Int := (fr.stack_slot : Int) + slot
        if abs < 0 then .fatal "stack slot out of bounds"
        else
          match stackGetAbs s.stack abs.toNat with
          | some v => .ok { s with stack := v :: s.stack, frames := nextFrames fr frest }
          | none => .fatal "stack slot out of bounds"
      | .peekPtr slot =>
        let abs : Int := (fr.stack_slot : Int) + slot
        if abs < 0 then .fatal "stack slot out of bounds"
        else
          match stackGetAbs s.stack abs.toNat with
          | some v =>
            .ok { s with
              stack := .pointer (Pointer.ofValue (.stackSlot abs.toNat) v) :: s.stack,
              frames := nextFrames fr frest }
          | none => .fatal "stack slot out of bounds"
      | .setLocal slot =>
        let abs : Int := (fr.stack_slot : Int) + slot
        match s.stack with
        | v :: rest =>
          if abs < 0 then .fatal "stack slot out of bounds"
          else if abs.toNat < rest.length then
            .ok { s with stack := stackSetAbs rest abs.toNat v, frames := nextFrames fr frest }
          else .fatal "stack slot out of bounds"
        | [] => .fatal "stack underflow"
      | .assign =>
        -- pop the lvalue pointer, pop the rvalue, write through the pointer
        match s.stack with
        | .pointer p :: rv :: rest =>
          match writeLoc { s with stack := rest } p.loc rv with
          | some s2 => .ok { s2 with frames := nextFrames fr frest }
          | none => .fatal "invalid pointer write"
        | _ :: _ :: _ => .fatal "invalid value in assign"
        | _ => .fatal "stack underflow"
      | .copy offset =>
        match s.stack.get? offset with
        | some v => .ok { s with stack := v :: s.stack, frames := nextFrames fr frest }
        | none => .fatal "stack slot out of bounds"
      | .roll offset =>
        match s.stack.get? offset with
        | some v =>
          .ok { s with stack := v :: s.stack.eraseIdx offset, frames := nextFrames fr frest }
        | none => .fatal "stack slot out of bounds"
      | .increment =>
        match s.stack with
        | .pointer p :: rest =>
          if p.isIntTag then
            match readLoc { s with stack := rest } p.loc with
            | some pv =>
              match incValue pv with
              | some pv2 =>
                match writeLoc { s with stack := rest } p.loc pv2 with
                | some s2 => .ok { s2 with frames := nextFrames fr frest }
                | none => .fatal "invalid pointer write"
              | none => .fatal "pointer type mismatch in increment"
            | none => .fatal "dangling pointer in increment"
          else .fatal "invalid pointer in increment"
        | _ :: _ => .fatal "invalid value in increment"
        | [] => .fatal "stack underflow"
      | .halt =>
        -- pop the result, then pop the current (entry) function cell
        match s.stack with
        | v :: _ :: rest => .done v { s with stack := rest }
        | _ => .fatal "stack underflow"

/-- Iterate `step` while it keeps succeeding, with explicit fuel
(`VM::run_inner`'s loop). -/
def runLoop (ffi : FfiFn) : Nat → VMState → StepResult
  | 0, s => .ok s
  | n + 1, s =>
    match step ffi s with
    | .ok s2 => runLoop ffi n s2
    | r => r

/-- `VM::run_func`: push the entry function onto the operand stack, push its
frame, then run the loop. -/
def run_func (ffi : FfiFn) (fuel : Nat) (f : Func) (globals constants : List Value) :
    StepResult :=
  runLoop ffi fuel
    (pushFrame { stack := [Value.func f], frames := [], globals := globals,
                 constants := constants } f)

/-- Chain `n` successful steps (`none` if any of them leaves the loop or
faults). -/
def stepsOk (ffi : FfiFn) : Nat → VMState → Option VMState
  | 0, s => some s
  | n + 1, s =>
    match step ffi s with
    | .ok s2 => stepsOk ffi n s2
    | _ => none

/-- The session state relevant to global-slot management
(`Interp.globals` plus the `bindings_to_globals` side table in
`src/src/interp/interp.rs`; the `HashMap` is modelled as an association
list without duplicate keys — `insert_global` only ever inserts a key it
just failed to find). -/
structure InterpState where
  globals : List Value
  bindings_to_globals : List (Nat × Nat)

/-- `HashMap::get` on the binding-to-slot side table. -/
def lookupBindingSlot : List (Nat × Nat) → Nat → Option Nat
  | [], _ => none
  | (k, slot) :: rest, id => if k = id then some slot else lookupBindingSlot rest id

/-- `InterpSess::insert_global`: if the binding id is already mapped to a
slot, overwrite that slot with the value and return it; otherwise append
the value at slot `globals.len()`, record the mapping and return the new
slot. -/
def insert_global (st : InterpState) (id : Nat) (value : Value) : Nat × InterpState :=
  match lookupBindingSlot st.bindings_to_globals id with
  | some slot => (slot, { st with globals := st.globals.set slot value })
  | none =>
    let slot := st.globals.length
    (slot, { globals := st.globals ++ [value],
             bindings_to_globals := (id, slot) :: st.bindings_to_globals })

/-! Concrete machines used by the witnesses and counterexamples. -/

/-- A trivial foreign-call oracle for concrete runs. -/
def ffi0 : FfiFn := fun _ _ => Value.unit

/-- Truncating to at most the current depth keeps exactly `n` values. -/
theorem stackTruncate_length (st : List Value) (n : Nat) (h : n ≤ st.length) :
    (stackTruncate st n).length = n := by
  simp [stackTruncate]
  omega

/-- Caller function for the C1 witness. -/
def c1Main : Func := .mk 0 "main" [] .unit ⟨[.pushConst 0, .pushConst 1, .call 1, .halt], 0⟩

/-- Callee function for the C1 witness: one argument, two local slots. -/
def c1Callee : Func := .mk 1 "callee" [.int] .unit ⟨[.ret], 2⟩

/-- State for the C1 witness: the callee was peeked on top of its argument. -/
def c1State : VMState :=
  { stack := [.func c1Callee, .int 3, .func c1Main],
    frames := [⟨c1Main, 0, 2⟩], globals := [],
    constants := [.func c1Callee, .int 3] }

/-- Claim C1: executing `Call(argc)` with a `Function` on top of the stack
peeks (does not pop) the callee, pushes a frame with base slot
`stack.len() - 1` and `ip = 0`, and pushes exactly `locals` `Unit`
placeholders on top of the untouched stack before the callee starts. -/
theorem C1_call_function_pushes_frame (ffi : FfiFn) (s : VMState)
    (fr : StackFrame) (frest : List StackFrame) (argc : Nat) (f : Func)
    (rest : List Value)
    (hframes : s.frames = fr :: frest)
    (hfetch : instrAt fr.func fr.ip = some (.call argc))
    (hstack : s.stack = .func f :: rest) :
    step ffi s = .ok { s with
      stack := List.replicate f.code.locals Value.unit ++ (Value.func f :: rest),
      frames := ⟨f, s.stack.length - 1, 0⟩ :: fr :: frest } := by
  simp [step, hframes, hfetch, hstack, pushFrame]

/-- Witness for C1 at a concrete call state: the hypotheses hold and the
conclusion follows by applying the theorem. -/
theorem C1_call_function_pushes_frame_witness :
    c1State.frames = (⟨c1Main, 0, 2⟩ : StackFrame) :: [] ∧
    instrAt (⟨c1Main, 0, 2⟩ : StackFrame).func (⟨c1Main, 0, 2⟩ : StackFrame).ip
      = some (.call 1) ∧
    c1State.stack = .func c1Callee :: [.int 3, .func c1Main] ∧
    step ffi0 c1State = .ok { c1State with
      stack := List.replicate c1Callee.code.locals Value.unit
        ++ (Value.func c1Callee :: [.int 3, .func c1Main]),
      frames := ⟨c1Callee, c1State.stack.length - 1, 0⟩
        :: (⟨c1Main, 0, 2⟩ : StackFrame) :: [] } :=
  ⟨rfl, rfl, rfl,
    C1_call_function_pushes_frame ffi0 c1State ⟨c1Main, 0, 2⟩ [] 1 c1Callee
      [.int 3, .func c1Main] rfl rfl rfl⟩

/-- Claim C2: a `Return` pops the frame and the return value; in a
non-outermost frame it truncates the stack to `frame.stack_slot - argc`
(with `argc` the frame function's declared argument count) and pushes the
value back, leaving depth `frame.stack_slot - argc + 1` with the value on
top; in the outermost frame the loop terminates with the popped value. -/
theorem C2_return_balances_stack (ffi : FfiFn) (s : VMState)
    (fr : StackFrame) (frest : List StackFrame) (rv : Value) (rest : List Value)
    (hframes : s.frames = fr :: frest)
    (hfetch : instrAt fr.func fr.ip = some .ret)
    (hstack : s.stack = rv :: rest)
    (_hargs : fr.func.arg_types.length ≤ fr.stack_slot)
    (hdepth : fr.stack_slot - fr.func.arg_types.length ≤ rest.length) :
    (∀ caller frest2, frest = caller :: frest2 →
      step ffi s = .ok { s with
        stack := rv :: stackTruncate rest (fr.stack_slot - fr.func.arg_types.length),
        frames := nextFrames caller frest2 } ∧
      (rv :: stackTruncate rest (fr.stack_slot - fr.func.arg_types.length)).length
        = fr.stack_slot - fr.func.arg_types.length + 1) ∧
    (frest = [] → step ffi s = .done rv { s with stack := rest, frames := [] }) := by
  constructor
  · intro caller frest2 hrest
    subst hrest
    constructor
    · simp [step, hframes, hfetch, hstack]
    · simp [stackTruncate_length rest _ hdepth]
  · intro hrest
    subst hrest
    simp [step, hframes, hfetch, hstack]

/-- Caller function for the C2 witness. -/
def c2Main : Func :=
  .mk 0 "main" [] .unit ⟨[.pushConst 0, .pushConst 1, .pushConst 2, .call 2, .halt], 0⟩

/-- Callee for the C2 witness: two arguments, no locals. -/
def c2Callee : Func :=
  .mk 1 "lt2" [.int, .int] .bool ⟨[.peek (-2), .peek (-1), .lt, .ret], 0⟩

/-- State for the C2 witness: the callee is about to return `Bool true` to
its caller; its base slot is 3 and it declared two arguments. -/
def c2State : VMState :=
  { stack := [.bool true, .func c2Callee, .int 7, .int 2, .func c2Main],
    frames := [⟨c2Callee, 3, 3⟩, ⟨c2Main, 0, 3⟩], globals := [],
    constants := [.int 2, .int 7, .func c2Callee] }

/-- Witness for C2 at a concrete return state: the hypotheses hold and the
non-outermost conclusion follows by applying the theorem. -/
theorem C2_return_balances_stack_witness :
    instrAt (⟨c2Callee, 3, 3⟩ : StackFrame).func 3 = some .ret ∧
    (⟨c2Callee, 3, 3⟩ : StackFrame).func.arg_types.length ≤ 3 ∧
    step ffi0 c2State = .ok { c2State with
      stack := .bool true :: stackTruncate [.func c2Callee, .int 7, .int 2, .func c2Main]
        ((⟨c2Callee, 3, 3⟩ : StackFrame).stack_slot
          - (⟨c2Callee, 3, 3⟩ : StackFrame).func.arg_types.length),
      frames := nextFrames ⟨c2Main, 0, 3⟩ [] } :=
  ⟨rfl, by decide,
    ((C2_return_balances_stack ffi0 c2State ⟨c2Callee, 3, 3⟩ [⟨c2Main, 0, 3⟩]
        (.bool true) [.func c2Callee, .int 7, .int 2, .func c2Main]
        rfl rfl rfl (by decide) (by decide)).1
      ⟨c2Main, 0, 3⟩ [] rfl).1⟩

/-- Program for the C3 counterexample. -/
def c3Main : Func := .mk 0 "main" [] .unit ⟨[.div, .halt], 0⟩

/-- State for the C3 counterexample: `I8(-128)` was pushed first and the
nonzero divisor `I8(-1)` second. -/
def c3State : VMState :=
  { stack := [.i8 (-1), .i8 (-128)], frames := [⟨c3Main, 0, 0⟩],
    globals := [], constants := [] }

/-- Claim C3 as stated is false: `Div` with the nonzero divisor `I8(-1)` and
dividend `I8(-128)` does not push a quotient — Rust's `/` panics on the
overflowing `MIN / -1` in every build profile, so execution aborts. -/
theorem C3_div_counterexample :
    step ffi0 c3State = .fatal "attempt to divide with overflow" ∧ (-1 : Int) ≠ 0 :=
  ⟨rfl, by decide⟩

/-- Claim C3 (amended): on same-tag integer operands, a zero divisor aborts
fatally and a nonzero divisor pushes the same-tag truncating quotient `a / b`
— except the signed overflow `MIN / -1`, which also aborts; on same-tag
float operands division never aborts, and a zero divisor yields `inf`,
`neginf` or `nan` per IEEE-754. -/
theorem C3_div_amended (ffi : FfiFn) :
    (∀ a b : Int, divOp (.i8 a) (.i8 b) =
      if b = 0 then .error "attempt to divide by zero"
      else if a = -(2 ^ 7) ∧ b = -1 then .error "attempt to divide with overflow"
      else .ok (.i8 (a.tdiv b))) ∧
    (∀ a b : Int, divOp (.i16 a) (.i16 b) =
      if b = 0 then .error "attempt to divide by zero"
      else if a = -(2 ^ 15) ∧ b = -1 then .error "attempt to divide with overflow"
      else .ok (.i16 (a.tdiv b))) ∧
    (∀ a b : Int, divOp (.i32 a) (.i32 b) =
      if b = 0 then .error "attempt to divide by zero"
      else if a = -(2 ^ 31) ∧ b = -1 then .error "attempt to divide with overflow"
      else .ok (.i32 (a.tdiv b))) ∧
    (∀ a b : Int, divOp (.i64 a) (.i64 b) =
      if b = 0 then .error "attempt to divide by zero"
      else if a = -(2 ^ 63) ∧ b = -1 then .error "attempt to divide with overflow"
      else .ok (.i64 (a.tdiv b))) ∧
    (∀ a b : Int, divOp (.int a) (.int b) =
      if b = 0 then .error "attempt to divide by zero"
      else if a = -(2 ^ 63) ∧ b = -1 then .error "attempt to divide with overflow"
      else .ok (.int (a.tdiv b))) ∧
    (∀ a b : Nat, divOp (.u8 a) (.u8 b) =
      if b = 0 then .error "attempt to divide by zero" else .ok (.u8 (a / b))) ∧
    (∀ a b : Nat, divOp (.u16 a) (.u16 b) =
      if b = 0 then .error "attempt to divide by zero" else .ok (.u16 (a / b))) ∧
    (∀ a b : Nat, divOp (.u32 a) (.u32 b) =
      if b = 0 then .error "attempt to divide by zero" else .ok (.u32 (a / b))) ∧
    (∀ a b : Nat, divOp (.u64 a) (.u64 b) =
      if b = 0 then .error "attempt to divide by zero" else .ok (.u64 (a / b))) ∧
    (∀ a b : Nat, divOp (.uint a) (.uint b) =
      if b = 0 then .error "attempt to divide by zero" else .ok (.uint (a / b))) ∧
    (∀ x y : Flt, divOp (.f32 x) (.f32 y) = .ok (.f32 (fltDiv x y))) ∧
    (∀ x y : Flt, divOp (.f64 x) (.f64 y) = .ok (.f64 (fltDiv x y))) ∧
    (∀ x : Flt, fltDiv x (.num 0) = .inf ∨ fltDiv x (.num 0) = .neginf ∨
      fltDiv x (.num 0) = .nan) ∧
    (∀ (s : VMState) (fr : StackFrame) (frest : List StackFrame)
        (a b : Value) (rest : List Value),
      s.frames = fr :: frest → instrAt fr.func fr.ip = some .div →
      s.stack = b :: a :: rest →
      step ffi s = match divOp a b with
        | .ok v => .ok { s with stack := v :: rest, frames := nextFrames fr frest }
        | .error msg => .fatal msg) := by
  refine ⟨?_, ?_, ?_, ?_, ?_, ?_, ?_, ?_, ?_, ?_, ?_, ?_, ?_, ?_⟩
  · intro a b
    simp only [divOp, binArith, divS]
    norm_num
    split_ifs <;> simp [Except.map]
  · intro a b
    simp only [divOp, binArith, divS]
    norm_num
    split_ifs <;> simp [Except.map]
  · intro a b
    simp only [divOp, binArith, divS]
    norm_num
    split_ifs <;> simp [Except.map]
  · intro a b
    simp only [divOp, binArith, divS]
    norm_num
    split_ifs <;> simp [Except.map]
  · intro a b
    simp only [divOp, binArith, divS]
    norm_num
    split_ifs <;> simp [Except.map]
  · intro a b
    simp only [divOp, binArith, divU]
    split_ifs <;> simp [Except.map]
  · intro a b
    simp only [divOp, binArith, divU]
    split_ifs <;> simp [Except.map]
  · intro a b
    simp only [divOp, binArith, divU]
    split_ifs <;> simp [Except.map]
  · intro a b
    simp only [divOp, binArith, divU]
    split_ifs <;> simp [Except.map]
  · intro a b
    simp only [divOp, binArith, divU]
    split_ifs <;> simp [Except.map]
  · intro x y
    simp [divOp, binArith]
  · intro x y
    simp [divOp, binArith]
  · intro x
    cases x <;> simp [fltDiv]
    case num a =>
      rcases lt_trichotomy a 0 with h | h | h <;> split_ifs <;> simp_all
  · intro s fr frest a b rest hframes hfetch hstack
    cases hd : divOp a b <;>
      simp [step, binStep, hframes, hfetch, hstack, hd]

/-- Witness for the amended C3 at concrete inputs: a zero divisor faults and
a nonzero divisor yields the quotient. -/
theorem C3_div_amended_witness :
    divOp (.i8 7) (.i8 0) = .error "attempt to divide by zero" ∧
    divOp (.i8 7) (.i8 (-2)) = .ok (.i8 (-3)) := by
  constructor
  · have h := (C3_div_amended ffi0).1 7 0
    simpa using h
  · have h := (C3_div_amended ffi0).1 7 (-2)
    norm_num at h
    simpa using h

/-- Program for the C4 witness: a conditional loop exit. -/
def c4Main : Func := .mk 0 "main" [] .unit ⟨[.pushConst 1, .jmpt 2, .noop, .halt], 0⟩

/-- State for the C4 witness: a truthy condition sits on top of the stack
under a `Jmpt`. -/
def c4State : VMState :=
  { stack := [.bool true, .int 9, .func c4Main], frames := [⟨c4Main, 0, 1⟩],
    globals := [], constants := [.unit, .bool true] }

/-- Claim C4: `Jmpt`/`Jmpf` pop the condition whether or not the jump is
taken (net effect: exactly the top value removed, everything below
unchanged), and the jump is taken exactly when the popped condition is
truthy (`Jmpt`) respectively falsy (`Jmpf`). -/
theorem C4_conditional_jumps_pop (ffi : FfiFn) (s : VMState)
    (fr : StackFrame) (frest : List StackFrame) (offset : Int)
    (cond : Value) (rest : List Value)
    (hframes : s.frames = fr :: frest)
    (hstack : s.stack = cond :: rest) :
    (instrAt fr.func fr.ip = some (.jmpt offset) →
      step ffi s = .ok { s with
        stack := rest,
        frames := (if cond.into_bool then { fr with ip := jmpIp fr.ip offset }
                   else { fr with ip := fr.ip + 1 }) :: frest }) ∧
    (instrAt fr.func fr.ip = some (.jmpf offset) →
      step ffi s = .ok { s with
        stack := rest,
        frames := (if cond.into_bool then { fr with ip := fr.ip + 1 }
                   else { fr with ip := jmpIp fr.ip offset }) :: frest }) := by
  constructor <;> intro hfetch <;>
    cases hc : cond.into_bool <;>
      simp [step, hframes, hfetch, hstack, nextFrames, hc]

/-- Witness for C4 at a concrete state: a taken `Jmpt` pops the condition
and jumps. -/
theorem C4_conditional_jumps_pop_witness :
    instrAt (⟨c4Main, 0, 1⟩ : StackFrame).func 1 = some (.jmpt 2) ∧
    c4State.stack = .bool true :: [.int 9, .func c4Main] ∧
    step ffi0 c4State = .ok { c4State with
      stack := [.int 9, .func c4Main],
      frames := (if (Value.bool true).into_bool
                 then { (⟨c4Main, 0, 1⟩ : StackFrame) with ip := jmpIp 1 2 }
                 else { (⟨c4Main, 0, 1⟩ : StackFrame) with ip := 1 + 1 }) :: [] } :=
  ⟨rfl, rfl,
    (C4_conditional_jumps_pop ffi0 c4State ⟨c4Main, 0, 1⟩ [] 2 (.bool true)
      [.int 9, .func c4Main] rfl rfl).1 rfl⟩

/-- The pointer tag chosen from a pointee never changes the address. -/
theorem Pointer.loc_ofValue (loc : PtrLoc) (v : Value) :
    (Pointer.ofValue loc v).loc = loc := by
  cases v <;> rfl

/-- Program for the C5 witness. -/
def c5Main : Func :=
  .mk 0 "main" [] .unit ⟨[.pushConst 1, .getGlobalPtr 0, .assign, .getGlobal 0, .halt], 0⟩

/-- State for the C5 witness: the rvalue 42 is on the stack and global slot 0
holds 0. -/
def c5State : VMState :=
  { stack := [.int 42, .func c5Main], frames := [⟨c5Main, 0, 1⟩],
    globals := [.int 0], constants := [.unit, .int 42] }

/-- Claim C5: for an in-bounds global slot, `GetGlobalPtr(slot)` then
`Assign` with rvalue `v` then `GetGlobal(slot)` lands the write in the
globals table and the read observes it: after the three steps
`globals[slot] = v` and the `GetGlobal` pushed a value equal to `v`. -/
theorem C5_global_ptr_write_through (ffi : FfiFn) (s : VMState)
    (fr : StackFrame) (frest : List StackFrame) (slot : Nat)
    (v : Value) (rest : List Value)
    (hframes : s.frames = fr :: frest)
    (h0 : instrAt fr.func fr.ip = some (.getGlobalPtr slot))
    (h1 : instrAt fr.func (fr.ip + 1) = some .assign)
    (h2 : instrAt fr.func (fr.ip + 2) = some (.getGlobal slot))
    (hstack : s.stack = v :: rest)
    (hslot : slot < s.globals.length) :
    stepsOk ffi 3 s = some { s with
      stack := v :: rest,
      globals := s.globals.set slot v,
      frames := { fr with ip := fr.ip + 3 } :: frest } := by
  have hw : s.globals.get? slot = some (s.globals.get ⟨slot, hslot⟩) :=
    List.get?_eq_get hslot
  have hset : (s.globals.set slot v).get? slot = some v := by
    rw [List.get?_eq_getElem?]
    exact List.getElem?_set_eq_of_lt v hslot
  have hip : fr.ip + 1 + 1 + 1 = fr.ip + 3 := by omega
  simp only [stepsOk, step, hframes, h0, hw]
  simp only [nextFrames]
  simp only [h1, Pointer.loc_ofValue, writeLoc, hstack, hslot, if_pos]
  simp only [h2, hset, hip]

/-- Witness for C5 at a concrete state: writing 42 through a global pointer
is observed by the following `GetGlobal`. -/
theorem C5_global_ptr_write_through_witness :
    instrAt (⟨c5Main, 0, 1⟩ : StackFrame).func 1 = some (.getGlobalPtr 0) ∧
    instrAt (⟨c5Main, 0, 1⟩ : StackFrame).func 2 = some .assign ∧
    instrAt (⟨c5Main, 0, 1⟩ : StackFrame).func 3 = some (.getGlobal 0) ∧
    (0 : Nat) < c5State.globals.length ∧
    stepsOk ffi0 3 c5State = some { c5State with
      stack := .int 42 :: [.func c5Main],
      globals := c5State.globals.set 0 (.int 42),
      frames := { (⟨c5Main, 0, 1⟩ : StackFrame) with ip := 1 + 3 } :: [] } :=
  ⟨rfl, rfl, rfl, by decide,
    C5_global_ptr_write_through ffi0 c5State ⟨c5Main, 0, 1⟩ [] 0 (.int 42)
      [.func c5Main] rfl rfl rfl rfl rfl (by decide)⟩

/-- Program for the C6 witness. -/
def c6Main : Func := .mk 0 "main" [] .unit ⟨[.and, .halt], 0⟩

/-- State for the C6 witness: `And` over a numeric operand and `Bool true`. -/
def c6State : VMState :=
  { stack := [.bool true, .int 3, .func c6Main], frames := [⟨c6Main, 0, 0⟩],
    globals := [], constants := [] }

/-- Claim C6: `And`/`Or` pop both operands and never abort, whatever the
tags; they push `Bool` of the truthiness projections combined, and the
projection maps `Bool(true)` to `true` and every other value (including
`Bool(false)` and all numerics) to `false`. -/
theorem C6_logic_ops_truthiness (ffi : FfiFn) (s : VMState)
    (fr : StackFrame) (frest : List StackFrame) (a b : Value) (rest : List Value)
    (hframes : s.frames = fr :: frest)
    (hstack : s.stack = b :: a :: rest) :
    (∀ v : Value, v.into_bool = true ↔ v = .bool true) ∧
    (instrAt fr.func fr.ip = some .and →
      step ffi s = .ok { s with
        stack := .bool (a.into_bool && b.into_bool) :: rest,
        frames := nextFrames fr frest }) ∧
    (instrAt fr.func fr.ip = some .or →
      step ffi s = .ok { s with
        stack := .bool (a.into_bool || b.into_bool) :: rest,
        frames := nextFrames fr frest }) := by
  refine ⟨?_, ?_, ?_⟩
  · intro v
    cases v <;> simp [Value.into_bool]
  · intro hfetch
    simp [step, hframes, hfetch, hstack]
  · intro hfetch
    simp [step, hframes, hfetch, hstack]

/-- Witness for C6 at a concrete state: `And` over `Int 3` (falsy) and
`Bool true` pushes `Bool false` without aborting. -/
theorem C6_logic_ops_truthiness_witness :
    instrAt (⟨c6Main, 0, 0⟩ : StackFrame).func 0 = some .and ∧
    step ffi0 c6State = .ok { c6State with
      stack := .bool ((Value.int 3).into_bool && (Value.bool true).into_bool)
        :: [.func c6Main],
      frames := nextFrames ⟨c6Main, 0, 0⟩ [] } :=
  ⟨rfl,
    (C6_logic_ops_truthiness ffi0 c6State ⟨c6Main, 0, 0⟩ [] (.int 3) (.bool true)
      [.func c6Main] rfl rfl).2.1 rfl⟩

/-- A value already inside the signed `w`-bit range is fixed by `wrapS`. -/
theorem wrapS_eq_self (w : Nat) (hw : 1 ≤ w) (x : Int)
    (h1 : -(2 ^ (w - 1)) ≤ x) (h2 : x < 2 ^ (w - 1)) : wrapS w x = x := by
  have hpow : (2 : Int) ^ w = 2 ^ (w - 1) * 2 := by
    conv_lhs => rw [show w = (w - 1) + 1 by omega]
    rw [pow_succ]
  have hge : (0 : Int) ≤ x + 2 ^ (w - 1) := by linarith
  have hlt : x + 2 ^ (w - 1) < 2 ^ w := by rw [hpow]; linarith
  unfold wrapS
  rw [Int.emod_eq_of_lt hge hlt]
  ring

/-- Claim C7: `Not` pops an integer operand of any width and pushes its
bitwise complement under the same tag (`-v - 1` in two's complement for the
signed widths, `2^w - 1 - v` for the unsigned widths), pushes the logical
negation for a `Bool` operand, and feeds the result through the dispatch of
the `Not` arm of the execution loop. -/
theorem C7_not_is_complement (ffi : FfiFn) :
    (∀ v : Int, -(2 ^ 7) ≤ v → v < 2 ^ 7 → notOp (.i8 v) = .ok (.i8 (-v - 1))) ∧
    (∀ v : Int, -(2 ^ 15) ≤ v → v < 2 ^ 15 → notOp (.i16 v) = .ok (.i16 (-v - 1))) ∧
    (∀ v : Int, -(2 ^ 31) ≤ v → v < 2 ^ 31 → notOp (.i32 v) = .ok (.i32 (-v - 1))) ∧
    (∀ v : Int, -(2 ^ 63) ≤ v → v < 2 ^ 63 → notOp (.i64 v) = .ok (.i64 (-v - 1))) ∧
    (∀ v : Int, -(2 ^ 63) ≤ v → v < 2 ^ 63 → notOp (.int v) = .ok (.int (-v - 1))) ∧
    (∀ v : Nat, v < 2 ^ 8 → notOp (.u8 v) = .ok (.u8 (2 ^ 8 - 1 - v))) ∧
    (∀ v : Nat, v < 2 ^ 16 → notOp (.u16 v) = .ok (.u16 (2 ^ 16 - 1 - v))) ∧
    (∀ v : Nat, v < 2 ^ 32 → notOp (.u32 v) = .ok (.u32 (2 ^ 32 - 1 - v))) ∧
    (∀ v : Nat, v < 2 ^ 64 → notOp (.u64 v) = .ok (.u64 (2 ^ 64 - 1 - v))) ∧
    (∀ v : Nat, v < 2 ^ 64 → notOp (.uint v) = .ok (.uint (2 ^ 64 - 1 - v))) ∧
    (∀ b : Bool, notOp (.bool b) = .ok (.bool !b)) ∧
    (∀ (s : VMState) (fr : StackFrame) (frest : List StackFrame)
        (a : Value) (rest : List Value),
      s.frames = fr :: frest → instrAt fr.func fr.ip = some .not →
      s.stack = a :: rest →
      step ffi s = match notOp a with
        | .ok v => .ok { s with stack := v :: rest, frames := nextFrames fr frest }
        | .error msg => .fatal msg) := by
  refine ⟨?_, ?_, ?_, ?_, ?_, ?_, ?_, ?_, ?_, ?_, ?_, ?_⟩
  · intro v h1 h2
    have h := wrapS_eq_self 8 (by omega) (-v - 1) (by norm_num at h1 h2 ⊢; omega)
      (by norm_num at h1 h2 ⊢; omega)
    simp [notOp, h]
  · intro v h1 h2
    have h := wrapS_eq_self 16 (by omega) (-v - 1) (by norm_num at h1 h2 ⊢; omega)
      (by norm_num at h1 h2 ⊢; omega)
    simp [notOp, h]
  · intro v h1 h2
    have h := wrapS_eq_self 32 (by omega) (-v - 1) (by norm_num at h1 h2 ⊢; omega)
      (by norm_num at h1 h2 ⊢; omega)
    simp [notOp, h]
  · intro v h1 h2
    have h := wrapS_eq_self 64 (by omega) (-v - 1) (by norm_num at h1 h2 ⊢; omega)
      (by norm_num at h1 h2 ⊢; omega)
    simp [notOp, h]
  · intro v h1 h2
    have h := wrapS_eq_self 64 (by omega) (-v - 1) (by norm_num at h1 h2 ⊢; omega)
      (by norm_num at h1 h2 ⊢; omega)
    simp [notOp, h]
  · intro v h
    have : wrapU 8 v = v := Nat.mod_eq_of_lt h
    simp [notOp, this]
  · intro v h
    have : wrapU 16 v = v := Nat.mod_eq_of_lt h
    simp [notOp, this]
  · intro v h
    have : wrapU 32 v = v := Nat.mod_eq_of_lt h
    simp [notOp, this]
  · intro v h
    have : wrapU 64 v = v := Nat.mod_eq_of_lt h
    simp [notOp, this]
  · intro v h
    have : wrapU 64 v = v := Nat.mod_eq_of_lt h
    simp [notOp, this]
  · intro b
    simp [notOp]
  · intro s fr frest a rest hframes hfetch hstack
    cases hn : notOp a <;>
      simp [step, hframes, hfetch, hstack, hn]

/-- Witness for C7 at concrete inputs: `Not` of `I8 5` is `I8 (-6)`. -/
theorem C7_not_is_complement_witness :
    -(2 ^ 7) ≤ (5 : Int) ∧ (5 : Int) < 2 ^ 7 ∧
    notOp (.i8 5) = .ok (.i8 (-5 - 1)) :=
  ⟨by norm_num, by norm_num, (C7_not_is_complement ffi0).1 5 (by norm_num) (by norm_num)⟩

/-- Program for the C8 counterexample and witness. -/
def c8Main : Func := .mk 0 "main" [] .unit ⟨[.increment, .halt], 0⟩

/-- State for the C8 counterexample: an `F64`-tagged pointer (numeric
pointee) on top of the stack under an `Increment`. -/
def c8BadState : VMState :=
  { stack := [.pointer (.f64 (.global 0)), .func c8Main],
    frames := [⟨c8Main, 0, 0⟩], globals := [.f64 (.num 1)], constants := [] }

/-- Claim C8 as stated is false: `Increment` on a pointer whose pointee is
the numeric `F64(1.0)` does not mutate the pointee by +1 — the match in
`vm/mod.rs` handles only the ten integer pointer tags, and the float tags
fall into its fatal catch-all arm. -/
theorem C8_increment_counterexample :
    step ffi0 c8BadState = .fatal "invalid pointer in increment" := rfl

/-- State for the C8 witness: an `Int`-tagged pointer to global slot 0
holding `Int 41`. -/
def c8GoodState : VMState :=
  { stack := [.pointer (.int (.global 0)), .func c8Main],
    frames := [⟨c8Main, 0, 0⟩], globals := [.int 41], constants := [] }

/-- Claim C8 (amended): `Increment` on a pointer with any of the ten integer
tags pops the pointer, mutates the pointee in place by +1 (wrapping at the
width) and pushes nothing; pointee updates add exactly 1 whenever the
successor stays in range; a float-tagged pointer is rejected fatally. -/
theorem C8_increment_amended (ffi : FfiFn) :
    (∀ v : Int, -(2 ^ 7) ≤ v → v + 1 < 2 ^ 7 → incValue (.i8 v) = some (.i8 (v + 1))) ∧
    (∀ v : Int, -(2 ^ 15) ≤ v → v + 1 < 2 ^ 15 → incValue (.i16 v) = some (.i16 (v + 1))) ∧
    (∀ v : Int, -(2 ^ 31) ≤ v → v + 1 < 2 ^ 31 → incValue (.i32 v) = some (.i32 (v + 1))) ∧
    (∀ v : Int, -(2 ^ 63) ≤ v → v + 1 < 2 ^ 63 → incValue (.i64 v) = some (.i64 (v + 1))) ∧
    (∀ v : Int, -(2 ^ 63) ≤ v → v + 1 < 2 ^ 63 → incValue (.int v) = some (.int (v + 1))) ∧
    (∀ v : Nat, v + 1 < 2 ^ 8 → incValue (.u8 v) = some (.u8 (v + 1))) ∧
    (∀ v : Nat, v + 1 < 2 ^ 16 → incValue (.u16 v) = some (.u16 (v + 1))) ∧
    (∀ v : Nat, v + 1 < 2 ^ 32 → incValue (.u32 v) = some (.u32 (v + 1))) ∧
    (∀ v : Nat, v + 1 < 2 ^ 64 → incValue (.u64 v) = some (.u64 (v + 1))) ∧
    (∀ v : Nat, v + 1 < 2 ^ 64 → incValue (.uint v) = some (.uint (v + 1))) ∧
    (∀ loc : PtrLoc, (Pointer.f32 loc).isIntTag = false ∧
      (Pointer.f64 loc).isIntTag = false) ∧
    (∀ (s : VMState) (fr : StackFrame) (frest : List StackFrame)
        (p : Pointer) (rest : List Value) (pv pv2 : Value) (s2 : VMState),
      s.frames = fr :: frest → instrAt fr.func fr.ip = some .increment →
      s.stack = .pointer p :: rest →
      p.isIntTag = true →
      readLoc { s with stack := rest } p.loc = some pv →
      incValue pv = some pv2 →
      writeLoc { s with stack := rest } p.loc pv2 = some s2 →
      step ffi s = .ok { s2 with frames := nextFrames fr frest }) ∧
    (∀ (s : VMState) (fr : StackFrame) (frest : List StackFrame)
        (p : Pointer) (rest : List Value),
      s.frames = fr :: frest → instrAt fr.func fr.ip = some .increment →
      s.stack = .pointer p :: rest →
      p.isIntTag = false →
      step ffi s = .fatal "invalid pointer in increment") := by
  refine ⟨?_, ?_, ?_, ?_, ?_, ?_, ?_, ?_, ?_, ?_, ?_, ?_, ?_⟩
  · intro v h1 h2
    have h := wrapS_eq_self 8 (by omega) (v + 1) (by norm_num at h1 h2 ⊢; omega)
      (by norm_num at h1 h2 ⊢; omega)
    simp [incValue, h]
  · intro v h1 h2
    have h := wrapS_eq_self 16 (by omega) (v + 1) (by norm_num at h1 h2 ⊢; omega)
      (by norm_num at h1 h2 ⊢; omega)
    simp [incValue, h]
  · intro v h1 h2
    have h := wrapS_eq_self 32 (by omega) (v + 1) (by norm_num at h1 h2 ⊢; omega)
      (by norm_num at h1 h2 ⊢; omega)
    simp [incValue, h]
  · intro v h1 h2
    have h := wrapS_eq_self 64 (by omega) (v + 1) (by norm_num at h1 h2 ⊢; omega)
      (by norm_num at h1 h2 ⊢; omega)
    simp [incValue, h]
  · intro v h1 h2
    have h := wrapS_eq_self 64 (by omega) (v + 1) (by norm_num at h1 h2 ⊢; omega)
      (by norm_num at h1 h2 ⊢; omega)
    simp [incValue, h]
  · intro v h
    have : wrapU 8 (v + 1) = v + 1 := Nat.mod_eq_of_lt h
    simp [incValue, this]
  · intro v h
    have : wrapU 16 (v + 1) = v + 1 := Nat.mod_eq_of_lt h
    simp [incValue, this]
  · intro v h
    have : wrapU 32 (v + 1) = v + 1 := Nat.mod_eq_of_lt h
    simp [incValue, this]
  · intro v h
    have : wrapU 64 (v + 1) = v + 1 := Nat.mod_eq_of_lt h
    simp [incValue, this]
  · intro v h
    have : wrapU 64 (v + 1) = v + 1 := Nat.mod_eq_of_lt h
    simp [incValue, this]
  · intro loc
    exact ⟨rfl, rfl⟩
  · intro s fr frest p rest pv pv2 s2 hframes hfetch hstack htag hread hinc hwrite
    rw [hframes] at hread hwrite
    simp [step, hframes, hfetch, hstack, htag, hread, hinc, hwrite]
  · intro s fr frest p rest hframes hfetch hstack htag
    simp [step, hframes, hfetch, hstack, htag]

/-- Witness for the amended C8 at a concrete state: incrementing an
`Int`-tagged global pointer turns 41 into 42 and pushes nothing. -/
theorem C8_increment_amended_witness :
    (Pointer.int (.global 0)).isIntTag = true ∧
    readLoc { c8GoodState with stack := [.func c8Main] } (Pointer.int (.global 0)).loc
      = some (.int 41) ∧
    incValue (.int 41) = some (.int (41 + 1)) ∧
    step ffi0 c8GoodState = .ok { { c8GoodState with
        stack := [.func c8Main],
        globals := [.int 42] } with
      frames := nextFrames ⟨c8Main, 0, 0⟩ [] } :=
  ⟨rfl, rfl, (C8_increment_amended ffi0).2.2.2.2.1 41 (by norm_num) (by norm_num),
    (C8_increment_amended ffi0).2.2.2.2.2.2.2.2.2.2.2.1 c8GoodState ⟨c8Main, 0, 0⟩ []
      (.int (.global 0)) [.func c8Main] (.int 41) (.int 42)
      { c8GoodState with stack := [.func c8Main], globals := [.int 42] }
      rfl rfl rfl rfl rfl rfl rfl⟩

/-- Claim C9: `insert_global` is slot-stable — an id seen before overwrites
its existing slot (same slot returned, globals length unchanged); a new id
appends at slot `globals.len()` and records the mapping; inserting twice
under one id returns the same slot both times. -/
theorem C9_insert_global_slot_stable :
    (∀ (st : InterpState) (id : Nat) (v : Value) (slot : Nat),
      lookupBindingSlot st.bindings_to_globals id = some slot →
      insert_global st id v = (slot, { st with globals := st.globals.set slot v }) ∧
      (st.globals.set slot v).length = st.globals.length) ∧
    (∀ (st : InterpState) (id : Nat) (v : Value),
      lookupBindingSlot st.bindings_to_globals id = none →
      insert_global st id v = (st.globals.length,
        { globals := st.globals ++ [v],
          bindings_to_globals := (id, st.globals.length) :: st.bindings_to_globals })) ∧
    (∀ (st : InterpState) (id : Nat) (v w : Value),
      (insert_global (insert_global st id v).2 id w).1 = (insert_global st id v).1) := by
  refine ⟨?_, ?_, ?_⟩
  · intro st id v slot h
    exact ⟨by simp [insert_global, h], by simp⟩
  · intro st id v h
    simp [insert_global, h]
  · intro st id v w
    cases h : lookupBindingSlot st.bindings_to_globals id with
    | some slot => simp [insert_global, h]
    | none => simp [insert_global, h, lookupBindingSlot]

/-- Witness for C9 at a concrete session state: a fresh id takes slot 1,
and re-inserting under the same id returns slot 1 again. -/
theorem C9_insert_global_slot_stable_witness :
    lookupBindingSlot ([(7, 0)] : List (Nat × Nat)) 9 = none ∧
    insert_global ⟨[.int 1], [(7, 0)]⟩ 9 (.int 2)
      = (1, ⟨[.int 1, .int 2], [(9, 1), (7, 0)]⟩) ∧
    (insert_global (insert_global ⟨[.int 1], [(7, 0)]⟩ 9 (.int 2)).2 9 (.int 3)).1
      = (insert_global ⟨[.int 1], [(7, 0)]⟩ 9 (.int 2)).1 :=
  ⟨rfl, C9_insert_global_slot_stable.2.1 ⟨[.int 1], [(7, 0)]⟩ 9 (.int 2) rfl,
    C9_insert_global_slot_stable.2.2 ⟨[.int 1], [(7, 0)]⟩ 9 (.int 2) (.int 3)⟩

/-- Program for the C10 end-to-end run. -/
def c10Main : Func := .mk 0 "main" [] .unit ⟨[.pushConst 1, .halt], 0⟩

/-- Claim C10: `Halt` pops the top of stack as the run result and pops the
value beneath it (the entry `Function` cell `run_func` pushed), so a
`run_func` run ending in `Halt` returns the result with the entry-function
cell gone from the operand stack. -/
theorem C10_halt_pops_entry_function (ffi : FfiFn) :
    (∀ (s : VMState) (fr : StackFrame) (frest : List StackFrame)
        (v u : Value) (rest : List Value),
      s.frames = fr :: frest → instrAt fr.func fr.ip = some .halt →
      s.stack = v :: u :: rest →
      step ffi s = .done v { s with stack := rest }) ∧
    run_func ffi 10 c10Main [] [.unit, .int 5]
      = .done (.int 5) { stack := [], frames := [⟨c10Main, 0, 1⟩],
                         globals := [], constants := [.unit, .int 5] } := by
  constructor
  · intro s fr frest v u rest hframes hfetch hstack
    simp [step, hframes, hfetch, hstack]
  · rfl

/-- Witness for C10 at a concrete halt state: `Halt` pops the result and the
entry-function cell beneath it. -/
theorem C10_halt_pops_entry_function_witness :
    instrAt (⟨c10Main, 0, 1⟩ : StackFrame).func 1 = some .halt ∧
    step ffi0 { stack := [.int 5, .func c10Main], frames := [⟨c10Main, 0, 1⟩],
                globals := [], constants := [.unit, .int 5] }
      = .done (.int 5) { stack := ([] : List Value), frames := [⟨c10Main, 0, 1⟩],
                         globals := [], constants := [.unit, .int 5] } :=
  ⟨rfl,
    (C10_halt_pops_entry_function ffi0).1
      { stack := [.int 5, .func c10Main], frames := [⟨c10Main, 0, 1⟩],
        globals := [], constants := [.unit, .int 5] }
      ⟨c10Main, 0, 1⟩ [] (.int 5) (.func c10Main) [] rfl rfl rfl⟩
